import Mathlib

/-!
Shallow embedding of the lighting simulation in `src/light.rs` and of the
compute kernels of `src/main.rs` (the `update_kernel` transport stepper and
the `emit_kernel` emission overwrite), together with proofs about the
claims of the specification.

Modelling conventions:
* Rust `f32` arithmetic is modelled by real arithmetic (`ℝ`).
* The four-channel `Vec4<f32>` texel values are modelled one channel at a
  time: all kernel arithmetic on them is componentwise, and the
  `(emission != 0.0).any()` guard of the emission kernel is modelled as
  `≠ 0` on the modelled channel.
* Grid positions are modelled as `ℤ × ℤ`; the source casts `u32`
  positions through `i32` for the neighbour offsets, and all positions
  the kernels read are in range for the interior cells the claims
  quantify over.
-/

set_option maxRecDepth 16384

/-- `DIRECTIONS` from `src/main.rs`: number of direction bins per face. -/
def DIRECTIONS : ℕ := 9

/-- `TOTAL_DIRECTIONS = DIRECTIONS * 4` from `src/main.rs`. -/
def TOTAL_DIRECTIONS : ℕ := DIRECTIONS * 4

/-- `GRID_SIZE` from `src/main.rs`. -/
def GRID_SIZE : ℕ := 64

/-- `EPSILON` from `src/main.rs`. -/
noncomputable def EPSILON : ℝ := 0.001

/-- `compute_index_transmissions` from `src/light.rs`.  Given a bin angle and
a blur it returns the three transmission weights, ordered like the three
gather offsets pushed for the bin: `(straight (-1,0), lateral (0,1),
lateral (0,-1))`.  `y.is_sign_positive()` on the `f32` value
`slope / (1 + |slope|)` is modelled as `0 ≤ y` on the real value. -/
noncomputable def compute_index_transmissions (angle blur : ℝ) : ℝ × ℝ × ℝ :=
  let slope := Real.tan angle
  let y := slope / (1 + |slope|)
  let x := 1 / (1 + |slope|)
  let n := x * (1 - 3 * blur) + blur
  let tp := |y| * (1 - 3 * blur) + blur
  let tm := blur
  if 0 ≤ y then (n, tp, tm) else (n, tm, tp)

/-- The angle `((dir as f32 + 0.5) / directions as f32 - 0.5) * PI / 2.0`
assigned to bin `dir` by `compute_slope_gathers_n` in `src/light.rs`. -/
noncomputable def slopeGatherAngle (directions dir : ℕ) : ℝ :=
  (((dir : ℝ) + 0.5) / (directions : ℝ) - 0.5) * Real.pi / 2

/-- The blur profile of `compute_slope_gathers_n` in `src/light.rs`. -/
noncomputable def slopeGatherBlur (dir : ℕ) : ℝ :=
  if dir = 4 then 0.1 else if dir = 3 ∨ dir = 5 then 0.04 else 0

/-- The triple of transmissions pushed for bin `dir` by
`compute_slope_gathers_n (directions)` in `src/light.rs`; the flattened
`transmissions` vector stores these triples consecutively. -/
noncomputable def computeSlopeGathersBin (directions dir : ℕ) : ℝ × ℝ × ℝ :=
  compute_index_transmissions (slopeGatherAngle directions dir) (slopeGatherBlur dir)

/-- The literal angle table of `precomputed_slope_gathers` in `src/light.rs`. -/
noncomputable def precomputedAngles : List ℝ :=
  [-0.69813174, -0.52359873, -0.3890658, -0.21453294, 0,
    0.21453294, 0.3890658, 0.52359873, 0.6981317]

/-- The literal blur table of `precomputed_slope_gathers` in `src/light.rs`. -/
noncomputable def precomputedBlurs : List ℝ :=
  [0, 0, 0.07, 0.12, 0.2, 0.12, 0.07, 0, 0]

/-- The triple of transmissions pushed for bin `dir` by
`precomputed_slope_gathers(9)` in `src/light.rs` (the table the program
actually dispatches with). -/
noncomputable def precomputedBinTransmissions (dir : ℕ) : ℝ × ℝ × ℝ :=
  compute_index_transmissions (precomputedAngles.getD dir 0) (precomputedBlurs.getD dir 0)

lemma one_add_abs_pos (s : ℝ) : (0 : ℝ) < 1 + |s| := by positivity

lemma abs_y_eq (s : ℝ) : |s / (1 + |s|)| = |s| / (1 + |s|) := by
  rw [abs_div, abs_of_pos (one_add_abs_pos s)]

/-- The three weights of `compute_index_transmissions` always sum to `1`
(in exact real arithmetic): `1/(1+|s|) + |s|/(1+|s|) = 1`. -/
lemma compute_index_transmissions_sum (angle blur : ℝ) :
    (compute_index_transmissions angle blur).1 +
      (compute_index_transmissions angle blur).2.1 +
      (compute_index_transmissions angle blur).2.2 = 1 := by
  have hs := one_add_abs_pos (Real.tan angle)
  have habs := abs_y_eq (Real.tan angle)
  simp only [compute_index_transmissions]
  split_ifs <;> simp only [habs] <;> field_simp <;> ring

/-- Claim C1: for every bin angle and every blur `b ∈ [0, 0.5)`, the three
weights returned by `compute_index_transmissions` sum to exactly `1`, and
hence every destination bin of the built gather tables (both
`compute_slope_gathers_n` and the dispatched `precomputed_slope_gathers`
table) has per-destination weights summing to `1` (within any tolerance,
in particular `1e-5`). -/
theorem c1_gather_weights_sum_one :
    (∀ angle blur : ℝ, 0 ≤ blur → blur < 1 / 2 →
      (compute_index_transmissions angle blur).1 +
        (compute_index_transmissions angle blur).2.1 +
        (compute_index_transmissions angle blur).2.2 = 1) ∧
    (∀ directions dir : ℕ,
      (computeSlopeGathersBin directions dir).1 +
        (computeSlopeGathersBin directions dir).2.1 +
        (computeSlopeGathersBin directions dir).2.2 = 1) ∧
    (∀ dir : ℕ,
      (precomputedBinTransmissions dir).1 +
        (precomputedBinTransmissions dir).2.1 +
        (precomputedBinTransmissions dir).2.2 = 1) := by
  refine ⟨fun angle blur _ _ => compute_index_transmissions_sum angle blur,
    fun directions dir => compute_index_transmissions_sum _ _,
    fun dir => compute_index_transmissions_sum _ _⟩

/-- Witness for C1: concrete instantiation at `angle = 0`, `blur = 1/4`. -/
theorem c1_gather_weights_sum_one_witness :
    (0 : ℝ) ≤ 1 / 4 ∧ (1 / 4 : ℝ) < 1 / 2 ∧
      ((compute_index_transmissions 0 (1 / 4)).1 +
        (compute_index_transmissions 0 (1 / 4)).2.1 +
        (compute_index_transmissions 0 (1 / 4)).2.2 = 1) :=
  ⟨by norm_num, by norm_num,
    c1_gather_weights_sum_one.1 0 (1 / 4) (by norm_num) (by norm_num)⟩

/-- Claim C8: with `slope = tan angle`, `n = 1/(1+|slope|)` and
`t = |slope|/(1+|slope|)`, the straight weight is `n*(1-3b)+b`, the lateral
bin on the side of the sign of the slope (component `.2.1`, the `(0,1)`
gather, when the slope is nonnegative; component `.2.2`, the `(0,-1)`
gather, when it is negative) gets `t*(1-3b)+b`, and the opposite lateral
bin gets `b`. -/
theorem c8_slope_split_weights (angle blur : ℝ) :
    (compute_index_transmissions angle blur).1 =
        1 / (1 + |Real.tan angle|) * (1 - 3 * blur) + blur ∧
    (0 ≤ Real.tan angle →
      (compute_index_transmissions angle blur).2.1 =
          |Real.tan angle| / (1 + |Real.tan angle|) * (1 - 3 * blur) + blur ∧
        (compute_index_transmissions angle blur).2.2 = blur) ∧
    (Real.tan angle < 0 →
      (compute_index_transmissions angle blur).2.1 = blur ∧
        (compute_index_transmissions angle blur).2.2 =
          |Real.tan angle| / (1 + |Real.tan angle|) * (1 - 3 * blur) + blur) := by
  have hs := one_add_abs_pos (Real.tan angle)
  have habs := abs_y_eq (Real.tan angle)
  have hysign : 0 ≤ Real.tan angle / (1 + |Real.tan angle|) ↔ 0 ≤ Real.tan angle := by
    constructor
    · intro hy
      by_contra hneg
      push_neg at hneg
      have := div_neg_of_neg_of_pos hneg hs
      linarith
    · intro h
      exact div_nonneg h hs.le
  simp only [compute_index_transmissions]
  by_cases h : 0 ≤ Real.tan angle
  · rw [if_pos (hysign.mpr h)]
    exact ⟨rfl, fun _ => ⟨by rw [habs], rfl⟩, fun hneg => absurd h (not_le.mpr hneg)⟩
  · rw [if_neg (fun hy => h (hysign.mp hy))]
    exact ⟨rfl, fun hnn => absurd hnn h, fun _ => ⟨rfl, by rw [habs]⟩⟩

/-- Witness for C8: concrete instantiation at `angle = π/4` (slope `1`) and
`blur = 0`: the weights are `(1/2, 1/2, 0)`. -/
theorem c8_slope_split_weights_witness :
    0 ≤ Real.tan (Real.pi / 4) ∧
      (compute_index_transmissions (Real.pi / 4) 0).2.1 = 1 / 2 ∧
      (compute_index_transmissions (Real.pi / 4) 0).2.2 = 0 := by
  have h := (c8_slope_split_weights (Real.pi / 4) 0).2.1
  rw [Real.tan_pi_div_four] at h
  have h' := h (by norm_num)
  refine ⟨by rw [Real.tan_pi_div_four]; norm_num, ?_, h'.2⟩
  rw [h'.1]; norm_num

/-- Wall kinds of `src/main.rs` (`WALL_ABSORB`, `WALL_BLUR`, `WALL_TINT`,
`WALL_DIFFUSE` plus the default empty wall byte `0`).  The kernels only
compare the wall byte against these constants, and the editor writes only
these values, so a closed inductive is a faithful model. -/
inductive Wall
| empty
| absorb
| blur
| tint
| diffuse
deriving DecidableEq

/-- Grid positions, modelling the (`i32`-cast) texture coordinates. -/
abbrev Pos := ℤ × ℤ

/-- `rotate` from `src/main.rs`: rotates a canonical `+x`-face offset onto
face 0/1/2/3.  The source panics on any other face index; all call sites
pass `0..4`, for which the default branch is unreachable. -/
def rotate (face : ℕ) (d : Pos) : Pos :=
  match face with
  | 0 => d
  | 1 => (d.2, -d.1)
  | 2 => (-d.1, -d.2)
  | 3 => (-d.2, d.1)
  | _ => (0, 0)

/-- `Gather` from `src/light.rs`: a neighbour offset (relative to the
canonical `+x` face) and the destination direction bin. -/
structure Gather where
  offset : Pos
  direction : ℕ
deriving DecidableEq

/-- The three gather offsets pushed per bin by both table builders in
`src/light.rs`: straight `(-1,0)`, lateral `(0,1)`, lateral `(0,-1)`. -/
def gatherOffsets : List Pos := [(-1, 0), (0, 1), (0, -1)]

/-- The gather list built by `precomputed_slope_gathers` (identically by
`compute_slope_gathers_n`): for each bin `dir` in order, the three
offsets of `gatherOffsets` paired with `dir`. -/
def gathers : List Gather :=
  (List.range DIRECTIONS).flatMap fun dir => gatherOffsets.map fun o => ⟨o, dir⟩

/-- The gather entry at flattened index `j` (the index used into the
`transmissions` array). -/
def gather (j : ℕ) : Gather := gathers.getD j ⟨(0, 0), 0⟩

/-- The `apply` loop of `update_kernel` in `src/main.rs`, run for all four
faces: the gathered light accumulated into `light[d]`.  The imperative
`*light[dir] += transmission` accumulation writes index
`gather.direction + face * DIRECTIONS`, so per destination index the
result is the sum of the matching contributions.  Note that the loop reads
the neighbour `lights` texel unconditionally: it never consults the wall
of the neighbour. -/
noncomputable def accumLight (tr : ℕ → ℝ) (lights : Pos → ℕ → ℝ) (pos : Pos) (d : ℕ) : ℝ :=
  ∑ face ∈ Finset.range 4, ∑ j ∈ Finset.range (3 * DIRECTIONS),
    if (gather j).direction + face * DIRECTIONS = d then
      tr j * lights (pos + rotate face (gather j).offset) d
    else 0

/-- The `gathered_light` accumulation of `try_wall` in `src/main.rs` for a
given `face` (before the wall-colour multiplication): sums
`transmissions2[i] * light[dir]` over the gather entries whose rotated
offset cancels the wall offset (`rotate(wall_face, gather.offset) + offset
== IVec2::ZERO`), where `light` is the already-accumulated gather result. -/
noncomputable def gatheredLight (tr : ℕ → ℝ) (lights : Pos → ℕ → ℝ) (pos : Pos)
    (face : ℕ) : ℝ :=
  ∑ wf ∈ Finset.range 4, ∑ j ∈ Finset.range (3 * DIRECTIONS),
    if rotate wf (gather j).offset + rotate face (1, 0) = ((0 : ℤ), (0 : ℤ)) then
      tr j * accumLight tr lights pos ((gather j).direction + wf * DIRECTIONS)
    else 0

/-- `face_angle` of `try_wall`: `PI + (PI / 2.0 * face as f32)`. -/
noncomputable def faceAngle (face : ℕ) : ℝ := Real.pi + Real.pi / 2 * face

/-- The rotated bin angle of `try_wall`:
`angles[i] + wall_face as f32 * PI / 2.0`. -/
noncomputable def rotatedBinAngle (angles : ℕ → ℝ) (wf i : ℕ) : ℝ :=
  angles i + wf * (Real.pi / 2)

/-- `normalization_factor` of `try_wall`: sum of
`(angle - face_angle).cos()` over the rotated bins passing the
`> EPSILON` threshold. -/
noncomputable def normalizationFactor (angles : ℕ → ℝ) (face : ℕ) : ℝ :=
  ∑ wf ∈ Finset.range 4, ∑ i ∈ Finset.range DIRECTIONS,
    if Real.cos (rotatedBinAngle angles wf i - faceAngle face) > EPSILON then
      Real.cos (rotatedBinAngle angles wf i - faceAngle face)
    else 0

/-- The increment `try_wall` adds to `delta_light[i + wall_face * DIRECTIONS]`
for gathered light `g`: zero when the bin fails the `> EPSILON` cosine
threshold, and otherwise
`(angle - face_angle.cos()) / normalization_factor * g` — note the faithful
numerator `angle - cos(face_angle)` (operator precedence in the source puts
`.cos()` on `face_angle` alone), unlike the guard and the normalization
factor which use `cos(angle - face_angle)`. -/
noncomputable def bounceTerm (angles : ℕ → ℝ) (face : ℕ) (g : ℝ) (wf i : ℕ) : ℝ :=
  if Real.cos (rotatedBinAngle angles wf i - faceAngle face) > EPSILON then
    (rotatedBinAngle angles wf i - Real.cos (faceAngle face)) /
        normalizationFactor angles face * g
  else 0

/-- One `try_wall(face)` call of `update_kernel`: if the neighbour in
direction `rotate(face, IVec2::X)` is a Diffuse wall, the gathered light is
multiplied by that wall's colour and redistributed into
`delta_light[d]` (with `wall_face = d / DIRECTIONS`, `i = d % DIRECTIONS`);
otherwise nothing is added.  Only `WALL_DIFFUSE` triggers this branch in
the source (`WALL_TINT` does not). -/
noncomputable def tryWallDelta (walls : Pos → Wall) (wallColors : Pos → ℝ)
    (angles : ℕ → ℝ) (tr : ℕ → ℝ) (lights : Pos → ℕ → ℝ) (pos : Pos)
    (face : ℕ) (d : ℕ) : ℝ :=
  if walls (pos + rotate face (1, 0)) = Wall.diffuse then
    bounceTerm angles face
      (gatheredLight tr lights pos face * wallColors (pos + rotate face (1, 0)))
      (d / DIRECTIONS) (d % DIRECTIONS)
  else 0

/-- The body of `update_kernel` in `src/main.rs` for the cell at `pos`:
Absorb and Diffuse cells write all-zero radiance and return; every other
cell writes `light[d] + delta_light[d]` where `light` is the gather
accumulation over the four faces and `delta_light` the wall re-emission
deltas of the four `try_wall` calls.  (The `WALL_BLUR` isotropic-mean
branch is commented out in the source and therefore absent here.) -/
noncomputable def updateCell (walls : Pos → Wall) (wallColors : Pos → ℝ)
    (angles : ℕ → ℝ) (tr : ℕ → ℝ) (lights : Pos → ℕ → ℝ) (pos : Pos)
    (d : ℕ) : ℝ :=
  if walls pos = Wall.absorb ∨ walls pos = Wall.diffuse then 0
  else
    accumLight tr lights pos d +
      ∑ face ∈ Finset.range 4, tryWallDelta walls wallColors angles tr lights pos face d

/-- The set of positions `update_kernel` writes: the dispatch is over
`[GRID_SIZE - 2, GRID_SIZE - 2, 1]` and the kernel writes at
`pos = dispatch_id().xy() + 1`. -/
def interiorWrites : Finset Pos :=
  ((Finset.range (GRID_SIZE - 2)) ×ˢ (Finset.range (GRID_SIZE - 2))).image
    fun q => ((q.1 : ℤ) + 1, (q.2 : ℤ) + 1)

lemma mem_interiorWrites (p : Pos) :
    p ∈ interiorWrites ↔
      1 ≤ p.1 ∧ p.1 ≤ (GRID_SIZE : ℤ) - 2 ∧ 1 ≤ p.2 ∧ p.2 ≤ (GRID_SIZE : ℤ) - 2 := by
  unfold interiorWrites
  simp only [Finset.mem_image, Finset.mem_product, Finset.mem_range]
  constructor
  · rintro ⟨⟨a, b⟩, ⟨ha, hb⟩, rfl⟩
    unfold GRID_SIZE at *
    simp only
    omega
  · rintro ⟨h1, h2, h3, h4⟩
    unfold GRID_SIZE at *
    refine ⟨⟨(p.1 - 1).toNat, (p.2 - 1).toNat⟩, ⟨by omega, by omega⟩, ?_⟩
    obtain ⟨x, y⟩ := p
    simp only [Prod.mk.injEq]
    constructor <;> simp only at h1 h2 h3 h4 ⊢ <;> omega

/-- The next-lights buffer after one `update_kernel` dispatch: interior
cells get `updateCell`, every other texel of the destination buffer keeps
its previous contents `oldNext` (the kernel never writes it). -/
noncomputable def transportStep (walls : Pos → Wall) (wallColors : Pos → ℝ)
    (angles : ℕ → ℝ) (tr : ℕ → ℝ) (lights oldNext : Pos → ℕ → ℝ) :
    Pos → ℕ → ℝ :=
  fun p d =>
    if p ∈ interiorWrites then updateCell walls wallColors angles tr lights p d
    else oldNext p d

/-- `emit_kernel` of `src/main.rs`: dispatched per texel `(pos, d)`; a texel
whose emission value is nonzero (`(emission != 0.0).any()` on the modelled
channel) is overwritten with the emission value, all other texels keep the
buffer contents. -/
noncomputable def emitOverwrite (emission nextLights : Pos → ℕ → ℝ) : Pos → ℕ → ℝ :=
  fun p d => if emission p d ≠ 0 then emission p d else nextLights p d

/-- One frame of the `RedrawRequested` handler in `src/main.rs` as it acts
on the next-lights buffer: `update_kernel` over the interior, then
`emit_kernel` over the whole grid. -/
noncomputable def fullStep (walls : Pos → Wall) (wallColors : Pos → ℝ)
    (angles : ℕ → ℝ) (tr : ℕ → ℝ) (emission lights oldNext : Pos → ℕ → ℝ) :
    Pos → ℕ → ℝ :=
  emitOverwrite emission (transportStep walls wallColors angles tr lights oldNext)

/-- Claim C6: after one transport step, an interior cell with an Absorb
wall has all its next-radiance entries exactly `0` (the kernel writes the
zero texel and returns before the gather/bounce/combine steps). -/
theorem c6_absorb_cell_zero (walls : Pos → Wall) (wallColors : Pos → ℝ)
    (angles : ℕ → ℝ) (tr : ℕ → ℝ) (lights oldNext : Pos → ℕ → ℝ)
    (p : Pos) (d : ℕ) (hp : p ∈ interiorWrites) (hw : walls p = Wall.absorb) :
    transportStep walls wallColors angles tr lights oldNext p d = 0 := by
  unfold transportStep updateCell
  rw [if_pos hp, if_pos (Or.inl hw)]

/-- Witness for C6: an all-Absorb wall map at the interior cell `(1, 1)`. -/
theorem c6_absorb_cell_zero_witness :
    ((1 : ℤ), (1 : ℤ)) ∈ interiorWrites ∧
      transportStep (fun _ => Wall.absorb) (fun _ => 0) (fun _ => 0) (fun _ => 0)
        (fun _ _ => 1) (fun _ _ => 1) (1, 1) 0 = 0 := by
  have hp : ((1 : ℤ), (1 : ℤ)) ∈ interiorWrites := by
    rw [mem_interiorWrites]
    norm_num [GRID_SIZE]
  exact ⟨hp, c6_absorb_cell_zero _ _ _ _ _ _ _ _ hp rfl⟩

/-- Claim C10: after one transport step, an interior cell with a Diffuse
wall has all its next-radiance entries exactly `0`, through the same
short-circuit branch (`w == WALL_ABSORB || w == WALL_DIFFUSE`) as Absorb
cells. -/
theorem c10_diffuse_cell_zero (walls : Pos → Wall) (wallColors : Pos → ℝ)
    (angles : ℕ → ℝ) (tr : ℕ → ℝ) (lights oldNext : Pos → ℕ → ℝ)
    (p : Pos) (d : ℕ) (hp : p ∈ interiorWrites) (hw : walls p = Wall.diffuse) :
    transportStep walls wallColors angles tr lights oldNext p d = 0 := by
  unfold transportStep updateCell
  rw [if_pos hp, if_pos (Or.inr hw)]

/-- Witness for C10: an all-Diffuse wall map at the interior cell `(2, 3)`. -/
theorem c10_diffuse_cell_zero_witness :
    ((2 : ℤ), (3 : ℤ)) ∈ interiorWrites ∧
      transportStep (fun _ => Wall.diffuse) (fun _ => 0) (fun _ => 0) (fun _ => 0)
        (fun _ _ => 1) (fun _ _ => 1) (2, 3) 0 = 0 := by
  have hp : ((2 : ℤ), (3 : ℤ)) ∈ interiorWrites := by
    rw [mem_interiorWrites]
    norm_num [GRID_SIZE]
  exact ⟨hp, c10_diffuse_cell_zero _ _ _ _ _ _ _ _ hp rfl⟩

/-- Claim C9: the update kernel writes only the interior cells at positions
`1 .. GRID_SIZE - 2` in each axis (part one), so every border texel of the
destination buffer (coordinate `0` or `GRID_SIZE - 1` in either axis)
keeps its previous contents after a transport step (part two). -/
theorem c9_border_cells_unchanged (walls : Pos → Wall) (wallColors : Pos → ℝ)
    (angles : ℕ → ℝ) (tr : ℕ → ℝ) (lights oldNext : Pos → ℕ → ℝ)
    (p : Pos) (d : ℕ) :
    (∀ q ∈ interiorWrites,
      1 ≤ q.1 ∧ q.1 ≤ (GRID_SIZE : ℤ) - 2 ∧ 1 ≤ q.2 ∧ q.2 ≤ (GRID_SIZE : ℤ) - 2) ∧
    (p.1 = 0 ∨ p.1 = (GRID_SIZE : ℤ) - 1 ∨ p.2 = 0 ∨ p.2 = (GRID_SIZE : ℤ) - 1 →
      transportStep walls wallColors angles tr lights oldNext p d = oldNext p d) := by
  constructor
  · intro q hq
    exact (mem_interiorWrites q).mp hq
  · intro hb
    unfold transportStep
    rw [if_neg]
    rw [mem_interiorWrites]
    unfold GRID_SIZE at *
    push_cast at hb ⊢
    omega

/-- Witness for C9: the border texel `(0, 5)` keeps its previous buffer
value `7`. -/
theorem c9_border_cells_unchanged_witness :
    ((0 : ℤ), (5 : ℤ)).1 = 0 ∧
      transportStep (fun _ => Wall.empty) (fun _ => 0) (fun _ => 0) (fun _ => 0)
        (fun _ _ => 1) (fun _ _ => 7) (0, 5) 0 = 7 :=
  ⟨rfl,
    (c9_border_cells_unchanged (fun _ => Wall.empty) (fun _ => 0) (fun _ => 0)
        (fun _ => 0) (fun _ _ => 1) (fun _ _ => 7) (0, 5) 0).2 (Or.inl rfl)⟩

lemma gather_dir_eq : ∀ j, j < 27 → (gather j).direction = j / 3 := by decide

/-- Closed form for the double sums of the gather loops: for a destination
index `d < TOTAL_DIRECTIONS`, only the face `d / DIRECTIONS` and the three
flattened gather indices `3*(d % DIRECTIONS) + k`, `k < 3`, can contribute. -/
lemma gatherSum_closed (F : ℕ → ℕ → ℝ) (d : ℕ) (hd : d < TOTAL_DIRECTIONS)
    (hv : ∀ face, face < 4 → ∀ j, j < 3 * DIRECTIONS →
      (gather j).direction + face * DIRECTIONS ≠ d → F face j = 0) :
    (∑ face ∈ Finset.range 4, ∑ j ∈ Finset.range (3 * DIRECTIONS), F face j) =
      F (d / DIRECTIONS) (3 * (d % DIRECTIONS)) +
        F (d / DIRECTIONS) (3 * (d % DIRECTIONS) + 1) +
        F (d / DIRECTIONS) (3 * (d % DIRECTIONS) + 2) := by
  unfold TOTAL_DIRECTIONS at hd
  unfold DIRECTIONS at hd hv ⊢
  have hother : ∀ face ∈ Finset.range 4, face ≠ d / 9 →
      (∑ j ∈ Finset.range 27, F face j) = 0 := by
    intro face hf hne
    rw [Finset.mem_range] at hf
    refine Finset.sum_eq_zero fun j hj => ?_
    rw [Finset.mem_range] at hj
    refine hv face hf j hj ?_
    rw [gather_dir_eq j hj]
    omega
  rw [Finset.sum_eq_single_of_mem (d / 9) (Finset.mem_range.mpr (by omega)) hother]
  have hsub : ({3 * (d % 9), 3 * (d % 9) + 1, 3 * (d % 9) + 2} : Finset ℕ) ⊆
      Finset.range 27 := by
    intro x hx
    simp only [Finset.mem_insert, Finset.mem_singleton] at hx
    rw [Finset.mem_range]
    omega
  rw [← Finset.sum_subset hsub]
  · rw [Finset.sum_insert (by simp), Finset.sum_insert (by simp), Finset.sum_singleton,
      add_assoc]
  · intro j hj hnot
    rw [Finset.mem_range] at hj
    simp only [Finset.mem_insert, Finset.mem_singleton] at hnot
    refine hv (d / 9) (by omega) j hj ?_
    rw [gather_dir_eq j hj]
    omega

lemma gather_eval_0 : gather 0 = ⟨(-1, 0), 0⟩ := by decide

lemma gather_eval_1 : gather 1 = ⟨(0, 1), 0⟩ := by decide

lemma gather_eval_2 : gather 2 = ⟨(0, -1), 0⟩ := by decide

lemma gather_eval_3 : gather 3 = ⟨(-1, 0), 1⟩ := by decide

lemma gather_eval_4 : gather 4 = ⟨(0, 1), 1⟩ := by decide

lemma gather_eval_5 : gather 5 = ⟨(0, -1), 1⟩ := by decide

/-- Wall map for the Blur counterexample: a single Blur cell at `(2, 2)`. -/
def c4Walls : Pos → Wall := fun p => if p = (2, 2) then Wall.blur else Wall.empty

/-- Lights for the Blur counterexample: radiance `36` in direction `0` at
the straight gather neighbour `(1, 2)` of `(2, 2)`. -/
noncomputable def c4Lights : Pos → ℕ → ℝ := fun p d => if p = (1, 2) ∧ d = 0 then 36 else 0

/-- Uniform transmissions `1/2` for the Blur counterexample. -/
noncomputable def c4Tr : ℕ → ℝ := fun _ => 1 / 2

lemma c4_mem : ((2 : ℤ), (2 : ℤ)) ∈ interiorWrites := by
  rw [mem_interiorWrites]
  norm_num [GRID_SIZE]

lemma c4_delta (face : ℕ) (d : ℕ) :
    tryWallDelta c4Walls (fun _ => 0) (fun _ => 0) c4Tr c4Lights (2, 2) face d = 0 := by
  unfold tryWallDelta
  rw [if_neg]
  unfold c4Walls
  rcases face with _ | _ | _ | _ | face <;>
    simp [rotate, Prod.ext_iff]

lemma c4_accum (d : ℕ) (hd : d < 2) :
    accumLight c4Tr c4Lights (2, 2) d = if d = 0 then 18 else 0 := by
  unfold accumLight
  rw [gatherSum_closed _ d (by unfold TOTAL_DIRECTIONS DIRECTIONS; omega)
    (fun face hf j hj hne => if_neg hne)]
  interval_cases d <;>
    norm_num [DIRECTIONS, gather_eval_0, gather_eval_1, gather_eval_2, gather_eval_3,
      gather_eval_4, gather_eval_5, rotate, c4Lights, c4Tr, Prod.ext_iff]

lemma c4_eval (d : ℕ) (hd : d < 2) :
    transportStep c4Walls (fun _ => 0) (fun _ => 0) c4Tr c4Lights (fun _ _ => 0) (2, 2) d =
      if d = 0 then 18 else 0 := by
  unfold transportStep
  rw [if_pos c4_mem]
  unfold updateCell
  rw [if_neg (by simp [c4Walls])]
  rw [Finset.sum_congr rfl fun face _ => c4_delta face d, Finset.sum_const, smul_zero,
    add_zero]
  exact c4_accum d hd

/-- Counterexample to claim C4: the interior Blur cell `(2, 2)` receives
gathered light `18` in bin `0` and `0` in bin `1` (no re-emission deltas
anywhere in this configuration), so its next-radiance entries are not all
equal to the mean of the gathered values: the `WALL_BLUR` isotropic-mean
branch of `update_kernel` is commented out in the source. -/
theorem c4_blur_counterexample :
    c4Walls (2, 2) = Wall.blur ∧
      ¬ (∀ d < TOTAL_DIRECTIONS,
          transportStep c4Walls (fun _ => 0) (fun _ => 0) c4Tr c4Lights (fun _ _ => 0)
              (2, 2) d =
            (∑ k ∈ Finset.range TOTAL_DIRECTIONS, accumLight c4Tr c4Lights (2, 2) k) /
              TOTAL_DIRECTIONS) := by
  refine ⟨by simp [c4Walls], fun h => ?_⟩
  have h0 := h 0 (by norm_num [TOTAL_DIRECTIONS, DIRECTIONS])
  have h1 := h 1 (by norm_num [TOTAL_DIRECTIONS, DIRECTIONS])
  rw [c4_eval 0 (by norm_num)] at h0
  rw [c4_eval 1 (by norm_num)] at h1
  norm_num at h0 h1
  rw [← h1] at h0
  norm_num at h0

/-- Claim C4 amended: a Blur wall has no effect on transport: an interior
cell with `wall == Blur` is updated exactly as if its wall were Empty
(gathered light plus bounce deltas, bin by bin); in particular its entries
are not replaced by their mean. -/
theorem c4_blur_amended (walls : Pos → Wall) (wallColors : Pos → ℝ)
    (angles : ℕ → ℝ) (tr : ℕ → ℝ) (lights : Pos → ℕ → ℝ) (pos : Pos) (d : ℕ)
    (hw : walls pos = Wall.blur) :
    updateCell walls wallColors angles tr lights pos d =
      updateCell (Function.update walls pos Wall.empty) wallColors angles tr lights pos d := by
  unfold updateCell
  rw [if_neg (by rw [hw]; simp), if_neg (by rw [Function.update_same]; simp)]
  refine congrArg _ (Finset.sum_congr rfl fun face hface => ?_)
  unfold tryWallDelta
  have hoff : rotate face (1, 0) ≠ ((0 : ℤ), (0 : ℤ)) := by
    rw [Finset.mem_range] at hface
    interval_cases face <;> decide
  have hne : pos + rotate face (1, 0) ≠ pos := fun hcontra =>
    hoff (add_right_eq_self.mp hcontra)
  rw [Function.update_noteq hne]

/-- Witness for the amended C4: the Blur cell `(2, 2)` of the
counterexample configuration. -/
theorem c4_blur_amended_witness :
    c4Walls (2, 2) = Wall.blur ∧
      updateCell c4Walls (fun _ => 0) (fun _ => 0) c4Tr c4Lights (2, 2) 0 =
        updateCell (Function.update c4Walls (2, 2) Wall.empty) (fun _ => 0) (fun _ => 0)
          c4Tr c4Lights (2, 2) 0 :=
  ⟨by simp [c4Walls], c4_blur_amended _ _ _ _ _ _ 0 (by simp [c4Walls])⟩

/-- Modelled from the spec: the gather accumulation *with* the claimed skip
rule — "skip contribution only if the current cell is not Diffuse and the
neighbour is Diffuse, otherwise accumulate
`weight * neighbor.radiance[srcBin + f*D]`".  This definition exists only
to be compared against `accumLight`, the accumulation the source actually
performs (which has no wall check at all). -/
noncomputable def accumLightSpec (walls : Pos → Wall) (tr : ℕ → ℝ)
    (lights : Pos → ℕ → ℝ) (pos : Pos) (d : ℕ) : ℝ :=
  ∑ face ∈ Finset.range 4, ∑ j ∈ Finset.range (3 * DIRECTIONS),
    if (gather j).direction + face * DIRECTIONS = d then
      if walls pos ≠ Wall.diffuse ∧
          walls (pos + rotate face (gather j).offset) = Wall.diffuse then 0
      else tr j * lights (pos + rotate face (gather j).offset) d
    else 0

/-- The part of the gather accumulation contributed by entries whose
neighbour is a Diffuse wall (exactly the contributions claim C2 says are
skipped). -/
noncomputable def diffuseNeighborContribution (walls : Pos → Wall) (tr : ℕ → ℝ)
    (lights : Pos → ℕ → ℝ) (pos : Pos) (d : ℕ) : ℝ :=
  ∑ face ∈ Finset.range 4, ∑ j ∈ Finset.range (3 * DIRECTIONS),
    if (gather j).direction + face * DIRECTIONS = d ∧
        walls (pos + rotate face (gather j).offset) = Wall.diffuse then
      tr j * lights (pos + rotate face (gather j).offset) d
    else 0

/-- Wall map for the C2 counterexample: a single Diffuse cell at `(1, 2)`. -/
def c2Walls : Pos → Wall := fun p => if p = (1, 2) then Wall.diffuse else Wall.empty

/-- Lights for the C2 counterexample: the Diffuse cell `(1, 2)` holds
radiance `5` in direction `0` (reachable, e.g. after an emission overwrite
or a between-tick wall edit on that cell). -/
noncomputable def c2Lights : Pos → ℕ → ℝ := fun p d => if p = (1, 2) ∧ d = 0 then 5 else 0

/-- Counterexample to claim C2: the cell `(2, 2)` is not Diffuse and its
straight face-0 gather neighbour `(1, 2)` is Diffuse, yet `update_kernel`
accumulates the neighbour's radiance (`accumLight` is `5`, not `0`): the
`apply` loop in the source never reads the neighbour's wall, so the claimed
skip does not happen (the spec-modelled accumulation gives `0`). -/
theorem c2_diffuse_skip_counterexample :
    c2Walls (2, 2) ≠ Wall.diffuse ∧ c2Walls (1, 2) = Wall.diffuse ∧
      accumLight (fun _ => 1) c2Lights (2, 2) 0 = 5 ∧
      accumLightSpec c2Walls (fun _ => 1) c2Lights (2, 2) 0 = 0 := by
  refine ⟨by simp [c2Walls], by simp [c2Walls], ?_, ?_⟩
  · unfold accumLight
    rw [gatherSum_closed _ 0 (by norm_num [TOTAL_DIRECTIONS, DIRECTIONS])
      (fun face hf j hj hne => if_neg hne)]
    norm_num [DIRECTIONS, gather_eval_0, gather_eval_1, gather_eval_2, rotate,
      c2Lights, Prod.ext_iff]
  · unfold accumLightSpec
    rw [gatherSum_closed _ 0 (by norm_num [TOTAL_DIRECTIONS, DIRECTIONS])
      (fun face hf j hj hne => if_neg hne)]
    norm_num [DIRECTIONS, gather_eval_0, gather_eval_1, gather_eval_2, rotate,
      c2Lights, c2Walls, Prod.ext_iff]
    decide

/-- Claim C2 amended: no gather entry is ever skipped.  For a cell that is
not Diffuse (the only case in which the gather loop runs, since Diffuse
cells short-circuit to zero), the accumulated light equals the claimed
skip-based accumulation *plus* the contributions of all entries whose
neighbour is Diffuse: every entry accumulates
`weight * neighbor.radiance[srcBin + f*D]` into `light[destBin + f*D]`
regardless of the neighbour's wall. -/
theorem c2_no_skip_amended (walls : Pos → Wall) (tr : ℕ → ℝ)
    (lights : Pos → ℕ → ℝ) (pos : Pos) (d : ℕ) (hw : walls pos ≠ Wall.diffuse) :
    accumLight tr lights pos d =
      accumLightSpec walls tr lights pos d +
        diffuseNeighborContribution walls tr lights pos d := by
  unfold accumLight accumLightSpec diffuseNeighborContribution
  rw [← Finset.sum_add_distrib]
  refine Finset.sum_congr rfl fun face _ => ?_
  rw [← Finset.sum_add_distrib]
  refine Finset.sum_congr rfl fun j _ => ?_
  by_cases h1 : (gather j).direction + face * DIRECTIONS = d <;>
    by_cases h2 : walls (pos + rotate face (gather j).offset) = Wall.diffuse <;>
    simp [h1, h2, hw]

/-- Witness for the amended C2: the counterexample configuration at
`(2, 2)`, direction `0`. -/
theorem c2_no_skip_amended_witness :
    c2Walls (2, 2) ≠ Wall.diffuse ∧
      accumLight (fun _ => 1) c2Lights (2, 2) 0 =
        accumLightSpec c2Walls (fun _ => 1) c2Lights (2, 2) 0 +
          diffuseNeighborContribution c2Walls (fun _ => 1) c2Lights (2, 2) 0 :=
  ⟨by simp [c2Walls],
    c2_no_skip_amended c2Walls (fun _ => 1) c2Lights (2, 2) 0 (by simp [c2Walls])⟩

/-- Wall map for the C5 counterexample: no walls at all. -/
def c5Walls : Pos → Wall := fun _ => Wall.empty

/-- Lights for the C5 counterexample: radiance `2` in direction `1` at
`(4, 5)`, the straight face-0 gather neighbour of `(5, 5)`. -/
noncomputable def c5Lights : Pos → ℕ → ℝ := fun p d => if p = (4, 5) ∧ d = 1 then 2 else 0

/-- Uniform transmissions `1` for the C5 counterexample. -/
noncomputable def c5Tr : ℕ → ℝ := fun _ => 1

/-- Emission for the C5 counterexample: the cell `(5, 5)` emits `1` in
direction bin `0` and nothing in any other bin (a non-empty emission
vector with a zero entry at bin `1`). -/
noncomputable def c5Emission : Pos → ℕ → ℝ := fun p d => if p = (5, 5) ∧ d = 0 then 1 else 0

lemma c5_mem : ((5 : ℤ), (5 : ℤ)) ∈ interiorWrites := by
  rw [mem_interiorWrites]
  norm_num [GRID_SIZE]

lemma c5_delta (face : ℕ) (d : ℕ) :
    tryWallDelta c5Walls (fun _ => 0) (fun _ => 0) c5Tr c5Lights (5, 5) face d = 0 := by
  unfold tryWallDelta
  rw [if_neg]
  simp [c5Walls]

lemma c5_transport1 :
    transportStep c5Walls (fun _ => 0) (fun _ => 0) c5Tr c5Lights (fun _ _ => 0) (5, 5) 1 = 2 := by
  unfold transportStep
  rw [if_pos c5_mem]
  unfold updateCell
  rw [if_neg (by simp [c5Walls])]
  rw [Finset.sum_congr rfl fun face _ => c5_delta face 1, Finset.sum_const, smul_zero,
    add_zero]
  unfold accumLight
  rw [gatherSum_closed _ 1 (by norm_num [TOTAL_DIRECTIONS, DIRECTIONS])
    (fun face hf j hj hne => if_neg hne)]
  norm_num [DIRECTIONS, gather_eval_3, gather_eval_4, gather_eval_5, rotate,
    c5Lights, c5Tr, Prod.ext_iff]

/-- Counterexample to claim C5: the cell `(5, 5)` has a non-empty emission
vector (bin `0` emits `1`), yet after the full step its bin `1` holds the
transported value `2`, not its emission entry `0`: `emit_kernel` overwrites
per direction bin, not per cell, so the cell's radiance is not replaced by
its emission vector. -/
theorem c5_emission_overwrite_counterexample :
    (∃ d, d < TOTAL_DIRECTIONS ∧ c5Emission (5, 5) d ≠ 0) ∧
      c5Emission (5, 5) 1 = 0 ∧
      fullStep c5Walls (fun _ => 0) (fun _ => 0) c5Tr c5Emission c5Lights (fun _ _ => 0)
          (5, 5) 1 = 2 ∧
      ¬ (∀ d < TOTAL_DIRECTIONS,
          fullStep c5Walls (fun _ => 0) (fun _ => 0) c5Tr c5Emission c5Lights (fun _ _ => 0)
              (5, 5) d = c5Emission (5, 5) d) := by
  have hem1 : c5Emission (5, 5) 1 = 0 := by norm_num [c5Emission]
  have hfull : fullStep c5Walls (fun _ => 0) (fun _ => 0) c5Tr c5Emission c5Lights
      (fun _ _ => 0) (5, 5) 1 = 2 := by
    unfold fullStep emitOverwrite
    rw [if_neg (by rw [hem1]; simp)]
    exact c5_transport1
  refine ⟨⟨0, by norm_num [TOTAL_DIRECTIONS, DIRECTIONS], by norm_num [c5Emission]⟩,
    hem1, hfull, fun h => ?_⟩
  have h1 := h 1 (by norm_num [TOTAL_DIRECTIONS, DIRECTIONS])
  rw [hfull, hem1] at h1
  norm_num at h1

/-- Claim C5 amended: the emission overwrite is per direction bin, not per
cell: after the full step, a texel `(p, d)` whose emission value is nonzero
holds exactly the emission value, and a texel whose emission value is zero
keeps the transport result — even when other bins of the same cell have
nonzero emission.  In particular cells with no emission at all keep the
transport result in every bin. -/
theorem c5_emission_overwrite_amended (walls : Pos → Wall) (wallColors : Pos → ℝ)
    (angles : ℕ → ℝ) (tr : ℕ → ℝ) (em lights oldNext : Pos → ℕ → ℝ)
    (p : Pos) (d : ℕ) :
    (em p d ≠ 0 →
      fullStep walls wallColors angles tr em lights oldNext p d = em p d) ∧
    (em p d = 0 →
      fullStep walls wallColors angles tr em lights oldNext p d =
        transportStep walls wallColors angles tr lights oldNext p d) := by
  unfold fullStep emitOverwrite
  constructor
  · intro h
    rw [if_pos h]
  · intro h
    rw [if_neg (not_not_intro h)]

/-- Witness for the amended C5: both sides of the per-bin dichotomy at the
counterexample configuration. -/
theorem c5_emission_overwrite_amended_witness :
    c5Emission (5, 5) 0 ≠ 0 ∧
      fullStep c5Walls (fun _ => 0) (fun _ => 0) c5Tr c5Emission c5Lights (fun _ _ => 0)
          (5, 5) 0 = c5Emission (5, 5) 0 ∧
      c5Emission (5, 5) 1 = 0 ∧
      fullStep c5Walls (fun _ => 0) (fun _ => 0) c5Tr c5Emission c5Lights (fun _ _ => 0)
          (5, 5) 1 =
        transportStep c5Walls (fun _ => 0) (fun _ => 0) c5Tr c5Lights (fun _ _ => 0)
          (5, 5) 1 := by
  have h0 : c5Emission (5, 5) 0 ≠ 0 := by norm_num [c5Emission]
  have h1 : c5Emission (5, 5) 1 = 0 := by norm_num [c5Emission]
  exact ⟨h0,
    (c5_emission_overwrite_amended c5Walls (fun _ => 0) (fun _ => 0) c5Tr c5Emission
      c5Lights (fun _ _ => 0) (5, 5) 0).1 h0,
    h1,
    (c5_emission_overwrite_amended c5Walls (fun _ => 0) (fun _ => 0) c5Tr c5Emission
      c5Lights (fun _ _ => 0) (5, 5) 1).2 h1⟩

lemma EPSILON_pos : (0 : ℝ) < EPSILON := by norm_num [EPSILON]

/-- Any rotated bin passing the `> EPSILON` cosine threshold bounds the
normalization factor from below (all its summands are nonnegative). -/
lemma normalizationFactor_ge (angles : ℕ → ℝ) (face wf i : ℕ)
    (hwf : wf < 4) (hi : i < DIRECTIONS)
    (h : Real.cos (rotatedBinAngle angles wf i - faceAngle face) > EPSILON) :
    Real.cos (rotatedBinAngle angles wf i - faceAngle face) ≤
      normalizationFactor angles face := by
  unfold normalizationFactor
  have hnn : ∀ wf' i' : ℕ,
      (0 : ℝ) ≤ if Real.cos (rotatedBinAngle angles wf' i' - faceAngle face) > EPSILON then
        Real.cos (rotatedBinAngle angles wf' i' - faceAngle face) else 0 := by
    intro wf' i'
    split_ifs with h'
    · linarith [EPSILON_pos]
    · exact le_refl 0
  have h1 : (if Real.cos (rotatedBinAngle angles wf i - faceAngle face) > EPSILON then
        Real.cos (rotatedBinAngle angles wf i - faceAngle face) else 0) ≤
      ∑ i' ∈ Finset.range DIRECTIONS,
        if Real.cos (rotatedBinAngle angles wf i' - faceAngle face) > EPSILON then
          Real.cos (rotatedBinAngle angles wf i' - faceAngle face) else 0 :=
    Finset.single_le_sum (fun i' _ => hnn wf i') (Finset.mem_range.mpr hi)
  have h2 : (∑ i' ∈ Finset.range DIRECTIONS,
        if Real.cos (rotatedBinAngle angles wf i' - faceAngle face) > EPSILON then
          Real.cos (rotatedBinAngle angles wf i' - faceAngle face) else 0) ≤
      ∑ wf' ∈ Finset.range 4, ∑ i' ∈ Finset.range DIRECTIONS,
        if Real.cos (rotatedBinAngle angles wf' i' - faceAngle face) > EPSILON then
          Real.cos (rotatedBinAngle angles wf' i' - faceAngle face) else 0 :=
    Finset.single_le_sum
      (fun wf' _ => Finset.sum_nonneg fun i' _ => hnn wf' i')
      (Finset.mem_range.mpr hwf)
  rw [if_pos h] at h1
  linarith

/-- Claim C7: a rotated bin that fails the `> EPSILON` cosine threshold
receives exactly zero re-emission delta from that face (so if no bin passed,
the whole face delta would be zero), and whenever a bin passes — the only
case in which the division by the normalization factor executes — that
factor exceeds `EPSILON`, so the divisor is never zero and no NaN/Inf is
produced. -/
theorem c7_bounce_skip_no_zero_div (angles : ℕ → ℝ) (g : ℝ) (face wf i : ℕ) :
    (¬ Real.cos (rotatedBinAngle angles wf i - faceAngle face) > EPSILON →
      bounceTerm angles face g wf i = 0) ∧
    (Real.cos (rotatedBinAngle angles wf i - faceAngle face) > EPSILON →
      wf < 4 → i < DIRECTIONS →
      normalizationFactor angles face > EPSILON) := by
  constructor
  · intro h
    unfold bounceTerm
    rw [if_neg h]
  · intro h hwf hi
    have := normalizationFactor_ge angles face wf i hwf hi h
    linarith

/-- Witness for C7: with the all-zero angle assignment and face `0`, the
rotated bin `(wall_face 0, bin 0)` has cosine `-1` (fails the threshold,
zero delta) while the rotated bin `(wall_face 2, bin 0)` has cosine `1`
(passes), and the normalization factor indeed exceeds `EPSILON`. -/
theorem c7_bounce_skip_no_zero_div_witness :
    bounceTerm (fun _ => 0) 0 5 0 0 = 0 ∧
      normalizationFactor (fun _ => 0) 0 > EPSILON := by
  have harg0 : rotatedBinAngle (fun _ => 0) 0 0 - faceAngle 0 = -Real.pi := by
    unfold rotatedBinAngle faceAngle
    push_cast
    ring
  have harg2 : rotatedBinAngle (fun _ => 0) 2 0 - faceAngle 0 = 0 := by
    unfold rotatedBinAngle faceAngle
    push_cast
    ring
  have hfail : ¬ Real.cos (rotatedBinAngle (fun _ => 0) 0 0 - faceAngle 0) > EPSILON := by
    rw [harg0, Real.cos_neg, Real.cos_pi]
    norm_num [EPSILON]
  have hpass : Real.cos (rotatedBinAngle (fun _ => 0) 2 0 - faceAngle 0) > EPSILON := by
    rw [harg2, Real.cos_zero]
    norm_num [EPSILON]
  exact ⟨(c7_bounce_skip_no_zero_div (fun _ => 0) 5 0 0 0).1 hfail,
    (c7_bounce_skip_no_zero_div (fun _ => 0) 5 0 2 0).2 hpass (by norm_num)
      (by norm_num [DIRECTIONS])⟩

/-- Modelled from the spec: the redistribution increment claim C3 describes
— the gathered flux weighted by `cos(bin_angle - incidentFaceAngle)` and
divided by the normalization factor, so that the weights of the bins
passing the positive-cosine threshold sum to `1`.  It differs from the
source's `bounceTerm` only in the numerator: `cos(angle - face_angle)`
instead of the source's `angle - cos(face_angle)`. -/
noncomputable def bounceTermSpec (angles : ℕ → ℝ) (face : ℕ) (g : ℝ) (wf i : ℕ) : ℝ :=
  if Real.cos (rotatedBinAngle angles wf i - faceAngle face) > EPSILON then
    Real.cos (rotatedBinAngle angles wf i - faceAngle face) /
        normalizationFactor angles face * g
  else 0

/-- The angle table the dispatched program bakes into `try_wall`
(`precomputed_slope_gathers(9).angles`), as a function of the bin index. -/
noncomputable def programAngles : ℕ → ℝ := fun i => precomputedAngles.getD i 0

/-- Claim C3 is a code bug: for the program's own angle table, incident
face `0` and destination bin `22` (`wall_face 2`, bin `4`, whose rotated
angle differs from the face angle by exactly `0`), the source adds
`(π + 1) / N * gathered` — its numerator is `angle - cos(face_angle)`
(operator precedence slip, flagged "seems buggy" in the source) — while
the claimed cosine weighting adds `1 / N * gathered`; the two differ. -/
theorem c3_bounce_formula_bug :
    1 ≤ normalizationFactor programAngles 0 ∧
      bounceTerm programAngles 0 1 2 4 =
        (Real.pi + 1) / normalizationFactor programAngles 0 ∧
      bounceTermSpec programAngles 0 1 2 4 =
        1 / normalizationFactor programAngles 0 ∧
      bounceTerm programAngles 0 1 2 4 ≠ bounceTermSpec programAngles 0 1 2 4 := by
  have hang4 : programAngles 4 = 0 := rfl
  have harg : rotatedBinAngle programAngles 2 4 - faceAngle 0 = 0 := by
    unfold rotatedBinAngle faceAngle
    rw [hang4]
    push_cast
    ring
  have hpass : Real.cos (rotatedBinAngle programAngles 2 4 - faceAngle 0) > EPSILON := by
    rw [harg, Real.cos_zero]
    norm_num [EPSILON]
  have hN : 1 ≤ normalizationFactor programAngles 0 := by
    have := normalizationFactor_ge programAngles 0 2 4 (by norm_num)
      (by norm_num [DIRECTIONS]) hpass
    rw [harg, Real.cos_zero] at this
    exact this
  have hNpos : normalizationFactor programAngles 0 > 0 := by linarith
  have hbin : rotatedBinAngle programAngles 2 4 = Real.pi := by
    unfold rotatedBinAngle
    rw [hang4]
    push_cast
    ring
  have hface : Real.cos (faceAngle 0) = -1 := by
    unfold faceAngle
    push_cast
    rw [show Real.pi + Real.pi / 2 * 0 = Real.pi by ring, Real.cos_pi]
  have hcode : bounceTerm programAngles 0 1 2 4 =
      (Real.pi + 1) / normalizationFactor programAngles 0 := by
    unfold bounceTerm
    rw [if_pos hpass, hbin, hface, mul_one]
    ring_nf
  have hspec : bounceTermSpec programAngles 0 1 2 4 =
      1 / normalizationFactor programAngles 0 := by
    unfold bounceTermSpec
    rw [if_pos hpass, harg, Real.cos_zero, mul_one]
  refine ⟨hN, hcode, hspec, ?_⟩
  rw [hcode, hspec]
  intro heq
  rw [div_eq_div_iff (ne_of_gt hNpos) (ne_of_gt hNpos)] at heq
  have hpi : Real.pi = 0 := by
    have := mul_right_cancel₀ (ne_of_gt hNpos) heq
    linarith
  linarith [Real.pi_pos]
